import Mathlib

/-!
Shallow embedding of the playback clock, playlist rotation, favorites store and
filename parsing of the Madrid Rock Radio backend (src/backend/server.py).

Python strings are modelled as List Char, wall-clock timestamps and float
positions as rationals, and Python ints as Int.  The mutable module-level
RadioState is made explicit: each endpoint takes the state (plus the current
wall-clock time) and returns the possibly mutated state together with its
response.  The length of the SONGS_DB dictionary, which get_radio_state reports
as playlist_count, is passed in as a plain number since no claim depends on it.
-/

structure Track where
  id : List Char
  file_id : List Char
  title : List Char
  artist : List Char
  duration : Int
  audio_url : Option (List Char)
  thumbnail : Option (List Char)
deriving DecidableEq

structure RadioState where
  current_track : Option Track
  position : ℚ
  is_playing : Bool
  started_at : ℚ
  playlist : List Track
  history : List Track
deriving DecidableEq

structure UserFavorite where
  track : Option Track
  saved_at : ℚ
deriving DecidableEq

/-- Embedding of play_next_track (server.py lines 354-374): if the playlist is
empty the call is a no-op; otherwise the previously current track (if any) is
appended to the history, the history is truncated to its last 50 entries when
it exceeds 50, the head of the playlist becomes current, position is reset to
0, started_at is set to the current time, and the new current track is
re-appended at the tail of the playlist. -/
def play_next_track (s : RadioState) (now : ℚ) : RadioState :=
  match s.playlist with
  | [] => s
  | t :: rest =>
      let hist : List Track :=
        match s.current_track with
        | some c =>
            let h := s.history ++ [c]
            if 50 < h.length then h.drop (h.length - 50) else h
        | none => s.history
      { s with
        current_track := some t,
        position := 0,
        started_at := now,
        playlist := rest ++ [t],
        history := hist }

/-- Response shape of GET /radio/state (server.py lines 377-416). -/
structure StateResp where
  current_track : Option Track
  position : ℚ
  is_playing : Bool
  started_at : ℚ
  playlist_count : Nat
  just_played : Option Track
  up_next : List Track
deriving DecidableEq

/-- Embedding of get_radio_state (server.py lines 377-416): with no current
track it returns a fixed idle snapshot and leaves the state untouched;
otherwise, when is_playing holds, it computes elapsed = now - started_at and,
if elapsed has reached the current track's duration, performs one
play_next_track and reports position 0; otherwise it reports the elapsed
position (or the stored position when not playing).  just_played is the last
history entry and up_next the first three playlist entries, both read after
the possible advance. -/
def get_radio_state (songs_count : Nat) (s : RadioState) (now : ℚ) :
    RadioState × StateResp :=
  match s.current_track with
  | none =>
      (s, { current_track := none, position := 0, is_playing := false,
            started_at := 0, playlist_count := songs_count,
            just_played := none, up_next := [] })
  | some tr =>
      let res : RadioState × ℚ :=
        if s.is_playing then
          if (tr.duration : ℚ) ≤ now - s.started_at then
            (play_next_track s now, 0)
          else (s, now - s.started_at)
        else (s, s.position)
      (res.1, { current_track := res.1.current_track,
                position := res.2,
                is_playing := res.1.is_playing,
                started_at := res.1.started_at,
                playlist_count := songs_count,
                just_played := res.1.history.getLast?,
                up_next := res.1.playlist.take 3 })

/-- Response shape of GET /radio/stream (server.py lines 424-440). -/
structure StreamResp where
  audio_url : Option (List Char)
  position : ℚ
deriving DecidableEq

/-- Embedding of get_stream_url (server.py lines 424-440): 404 when no track is
current; otherwise it returns the current track's audio URL and the elapsed
position (the stored position when not playing).  It never mutates the radio
state: the returned state is the input state in both branches, mirroring the
absence of any mutation in the source. -/
def get_stream_url (s : RadioState) (now : ℚ) :
    RadioState × Except Nat StreamResp :=
  match s.current_track with
  | none => (s, Except.error 404)
  | some tr =>
      let pos : ℚ := if s.is_playing then now - s.started_at else s.position
      (s, Except.ok { audio_url := tr.audio_url, position := pos })

/-- Embedding of skip_track / POST /radio/next (server.py lines 418-422):
a forced rotation advance. -/
def skip_track (s : RadioState) (now : ℚ) : RadioState :=
  play_next_track s now

/-- Iterated rotation advances at a fixed wall-clock time (the selected next
track does not depend on the time argument). -/
def advanceN (k : ℕ) (s : RadioState) (now : ℚ) : RadioState :=
  match k with
  | 0 => s
  | k + 1 => play_next_track (advanceN k s now) now

/-- Embedding of save_favorite (server.py lines 560-574): 404 and no mutation
when no track is current; otherwise the single "main" favorite slot is
overwritten with a snapshot of the current track and the save time. -/
def save_favorite (s : RadioState) (fav : Option UserFavorite) (now : ℚ) :
    Option UserFavorite × Except Nat Track :=
  match s.current_track with
  | none => (fav, Except.error 404)
  | some tr => (some { track := some tr, saved_at := now }, Except.ok tr)

/-- Embedding of get_favorite (server.py lines 576-583): returns the stored
favorite track, or none when the slot is empty or holds no track. -/
def get_favorite (fav : Option UserFavorite) : Option Track :=
  match fav with
  | some f =>
      match f.track with
      | some t => some t
      | none => none
  | none => none

/-- Python str whitespace test, as used by the \s class of re.sub and by
str.strip in parse_filename (ASCII range). -/
def pyIsSpace (c : Char) : Bool :=
  c = ' ' || c = '\t' || c = '\n' || c = '\r' || c = '\x0b' || c = '\x0c'

/-- Embedding of filename.rsplit with a dot and maxsplit 1, first component
(server.py line 137): everything before the last dot, or the whole name when
no dot occurs. -/
def beforeLastDot : List Char → List Char
  | [] => []
  | c :: cs =>
      if '.' ∈ cs then c :: beforeLastDot cs
      else if c = '.' then [] else c :: cs

/-- Embedding of the anchored re.sub at server.py line 140, which removes a
leading run of digits, then optional whitespace, then at most one of the
characters dash, underscore or dot, then optional whitespace.  The pattern
matches only when the name starts with a digit. -/
def stripLeadingNum (s : List Char) : List Char :=
  match s with
  | [] => []
  | c :: _ =>
      if c.isDigit then
        let r1 := s.dropWhile Char.isDigit
        let r2 := r1.dropWhile pyIsSpace
        let r3 :=
          match r2 with
          | d :: ds => if d = '-' || d = '_' || d = '.' then ds else r2
          | [] => r2
        r3.dropWhile pyIsSpace
      else s

/-- Split at the first (leftmost) occurrence of the separator sequence, the
combined effect of the Python substring test and str.split with maxsplit 1 at
server.py lines 143-149; none when the separator does not occur. -/
def splitOnFirst (sep : List Char) : List Char → Option (List Char × List Char)
  | [] => if sep = [] then some ([], []) else none
  | c :: cs =>
      if (c :: cs).take sep.length = sep then some ([], (c :: cs).drop sep.length)
      else
        match splitOnFirst sep cs with
        | some (pre, post) => some (c :: pre, post)
        | none => none

/-- Embedding of Python str.strip with no arguments: drop whitespace from both
ends. -/
def pyStrip (s : List Char) : List Char :=
  ((s.dropWhile pyIsSpace).reverse.dropWhile pyIsSpace).reverse

/-- Result shape of parse_filename: the artist and title dictionary. -/
structure ParsedName where
  artist : List Char
  title : List Char
deriving DecidableEq

/-- The literal Unknown Artist fallback of server.py line 151. -/
def unknownArtist : List Char :=
  ['U', 'n', 'k', 'n', 'o', 'w', 'n', ' ', 'A', 'r', 't', 'i', 's', 't']

/-- The three-character separator space dash space of server.py line 143. -/
def sepSpaceDashSpace : List Char := [' ', '-', ' ']

/-- Embedding of parse_filename (server.py lines 134-151): strip the extension
at the last dot, strip a leading track-number run, then split at the first
space-dash-space, failing that at the first dash, stripping whitespace from
both pieces; with no separator the artist defaults to Unknown Artist and the
stripped remaining name is the title. -/
def parse_filename (filename : List Char) : ParsedName :=
  let name := stripLeadingNum (beforeLastDot filename)
  match splitOnFirst sepSpaceDashSpace name with
  | some (a, t) => { artist := pyStrip a, title := pyStrip t }
  | none =>
      match splitOnFirst ['-'] name with
      | some (a, t) => { artist := pyStrip a, title := pyStrip t }
      | none => { artist := unknownArtist, title := pyStrip name }

/-- Modelled from the spec sentence for claim C9, written from its words
alone: the parse is a pure function that strips the extension, strips a
leading track-number run, splits on the first space-dash-space separator or,
failing that, the first dash, into artist and title, and otherwise returns
Unknown Artist with the whole remaining name as the title. -/
def parse_filename_claimed (filename : List Char) : ParsedName :=
  let remaining := stripLeadingNum (beforeLastDot filename)
  match splitOnFirst sepSpaceDashSpace remaining, splitOnFirst ['-'] remaining with
  | some (a, t), _ => { artist := pyStrip a, title := pyStrip t }
  | none, some (a, t) => { artist := pyStrip a, title := pyStrip t }
  | none, none => { artist := unknownArtist, title := pyStrip remaining }

/-- Sample track with duration 5, used in concrete witnesses. -/
def trackA : Track :=
  { id := ['a'], file_id := ['a'], title := ['a'], artist := ['a'],
    duration := 5, audio_url := none, thumbnail := none }

/-- Sample track with duration 7. -/
def trackB : Track :=
  { id := ['b'], file_id := ['b'], title := ['b'], artist := ['b'],
    duration := 7, audio_url := none, thumbnail := none }

/-- Sample track with duration 9. -/
def trackC : Track :=
  { id := ['c'], file_id := ['c'], title := ['c'], artist := ['c'],
    duration := 9, audio_url := none, thumbnail := none }

/-- Sample track with duration 0, the default duration of the Track model;
the backend never validates durations, so such a track can enter the playlist
from the external source. -/
def trackZ : Track :=
  { id := ['z'], file_id := ['z'], title := ['z'], artist := ['z'],
    duration := 0, audio_url := none, thumbnail := none }

/-- Playing state: trackA current since time 0, trackB queued. -/
def stateW1 : RadioState :=
  { current_track := some trackA, position := 0, is_playing := true,
    started_at := 0, playlist := [trackB], history := [] }

/-- Playing state: trackB current since time 0, trackA queued. -/
def stateB : RadioState :=
  { current_track := some trackB, position := 0, is_playing := true,
    started_at := 0, playlist := [trackA], history := [] }

/-- Idle state: nothing current and an empty playlist. -/
def stateEmpty : RadioState :=
  { current_track := none, position := 0, is_playing := true,
    started_at := 0, playlist := [], history := [] }

/-- Playing state with a two-track playlist, used for the rotation-period
witness: trackC is current and the queue is trackA then trackB. -/
def state3 : RadioState :=
  { current_track := some trackC, position := 0, is_playing := true,
    started_at := 0, playlist := [trackA, trackB], history := [] }

/-- Playing state used for the history-order counterexample: trackA current,
trackB and trackC queued, empty history. -/
def stateC4 : RadioState :=
  { current_track := some trackA, position := 0, is_playing := true,
    started_at := 0, playlist := [trackB, trackC], history := [] }

/-- Playing state used for the same-instant double-advance counterexample:
trackA (duration 5) current since time 0, and the zero-duration trackZ is the
only queued track. -/
def stateC5 : RadioState :=
  { current_track := some trackA, position := 0, is_playing := true,
    started_at := 0, playlist := [trackZ], history := [] }

/-- Playing state used for the zero-duration counterexample: the
zero-duration trackZ is current and its clock started at time 5. -/
def stateC8 : RadioState :=
  { current_track := some trackZ, position := 0, is_playing := true,
    started_at := 5, playlist := [trackB], history := [] }

lemma pnt_of_nil (s : RadioState) (now : ℚ) (h : s.playlist = []) :
    play_next_track s now = s := by
  simp [play_next_track, h]

lemma pnt_playlist (s : RadioState) (now : ℚ) :
    (play_next_track s now).playlist = s.playlist.rotate 1 := by
  rcases h : s.playlist with _ | ⟨t, rest⟩
  · simp [play_next_track, h]
  · simp [play_next_track, h]
    rw [show (1 : ℕ) = 0 + 1 from rfl, List.rotate_cons_succ, List.rotate_zero]

lemma pnt_current (s : RadioState) (now : ℚ) (t : Track) (rest : List Track)
    (h : s.playlist = t :: rest) :
    (play_next_track s now).current_track = some t := by
  simp [play_next_track, h]

lemma pnt_fields (s : RadioState) (now : ℚ) (t : Track) (rest : List Track)
    (h : s.playlist = t :: rest) :
    (play_next_track s now).started_at = now ∧
    (play_next_track s now).position = 0 ∧
    (play_next_track s now).is_playing = s.is_playing ∧
    (play_next_track s now).playlist = rest ++ [t] := by
  simp [play_next_track, h]

lemma advanceN_playlist (s : RadioState) (now : ℚ) :
    ∀ k, (advanceN k s now).playlist = s.playlist.rotate k
  | 0 => by simp [advanceN]
  | k + 1 => by
      rw [show advanceN (k + 1) s now = play_next_track (advanceN k s now) now from rfl,
        pnt_playlist, advanceN_playlist s now k, List.rotate_rotate]

lemma advanceN_current (s : RadioState) (now : ℚ) (k : ℕ) (hne : s.playlist ≠ []) :
    (advanceN (k + 1) s now).current_track = s.playlist[k % s.playlist.length]? := by
  have hlen : 0 < s.playlist.length := List.length_pos.mpr hne
  have hrot : (advanceN k s now).playlist = s.playlist.rotate k :=
    advanceN_playlist s now k
  have hrne : (advanceN k s now).playlist ≠ [] := by
    rw [hrot]
    intro hnil
    have := congrArg List.length hnil
    rw [List.length_rotate] at this
    simp at this
    exact hne this
  rcases hc : (advanceN k s now).playlist with _ | ⟨t, rest⟩
  · exact absurd hc hrne
  · have hcur : (advanceN (k + 1) s now).current_track = some t :=
      pnt_current (advanceN k s now) now t rest hc
    have hhead : (s.playlist.rotate k).head? = s.playlist[k % s.playlist.length]? := by
      have hk : k % s.playlist.length < s.playlist.length := Nat.mod_lt _ hlen
      rw [← List.rotate_mod]
      exact List.head?_rotate hk
    rw [hcur, ← hhead, ← hrot, hc]
    rfl

lemma grs_of_none (songs : Nat) (s : RadioState) (now : ℚ)
    (hc : s.current_track = none) :
    get_radio_state songs s now =
      (s, { current_track := none, position := 0, is_playing := false,
            started_at := 0, playlist_count := songs,
            just_played := none, up_next := [] }) := by
  simp [get_radio_state, hc]

lemma grs_fst_of_not_playing (songs : Nat) (s : RadioState) (now : ℚ) (tr : Track)
    (hc : s.current_track = some tr) (hp : s.is_playing = false) :
    (get_radio_state songs s now).fst = s := by
  simp [get_radio_state, hc, hp]

lemma grs_fst_of_early (songs : Nat) (s : RadioState) (now : ℚ) (tr : Track)
    (hc : s.current_track = some tr) (hp : s.is_playing = true)
    (hlt : now - s.started_at < (tr.duration : ℚ)) :
    (get_radio_state songs s now).fst = s := by
  simp [get_radio_state, hc, hp, not_le.mpr hlt]

lemma grs_fst_of_late (songs : Nat) (s : RadioState) (now : ℚ) (tr : Track)
    (hc : s.current_track = some tr) (hp : s.is_playing = true)
    (hle : (tr.duration : ℚ) ≤ now - s.started_at) :
    (get_radio_state songs s now).fst = play_next_track s now := by
  simp [get_radio_state, hc, hp, hle]

lemma grs_snd_pos_of_late (songs : Nat) (s : RadioState) (now : ℚ) (tr : Track)
    (hc : s.current_track = some tr) (hp : s.is_playing = true)
    (hle : (tr.duration : ℚ) ≤ now - s.started_at) :
    (get_radio_state songs s now).snd.position = 0 := by
  simp [get_radio_state, hc, hp, hle]

lemma histAppendCap_getLast (hist : List Track) (c : Track) :
    (let h := hist ++ [c];
     if 50 < h.length then h.drop (h.length - 50) else h).getLast? = some c := by
  by_cases hlen : 50 < (hist ++ [c]).length
  · simp only [hlen, if_pos]
    have hpos : 0 < (hist ++ [c]).length := by simp
    have hd : (hist ++ [c]).length - 50 < (hist ++ [c]).length :=
      Nat.sub_lt hpos (by norm_num)
    have hle : (hist ++ [c]).length - 50 ≤ hist.length := by
      simp only [List.length_append, List.length_singleton] at hd ⊢
      omega
    rw [List.drop_append_of_le_length hle]
    exact List.getLast?_concat _
  · simp only [hlen, if_neg, not_false_iff]
    exact List.getLast?_concat _

lemma histAppendCap_length (hist : List Track) (c : Track) :
    (let h := hist ++ [c];
     if 50 < h.length then h.drop (h.length - 50) else h).length ≤ 50 := by
  by_cases hlen : 50 < (hist ++ [c]).length
  · simp only [hlen, if_pos, List.length_drop]
    omega
  · simp only [hlen, if_neg, not_false_iff]
    omega

lemma pnt_history_length (s : RadioState) (now : ℚ) (hb : s.history.length ≤ 50) :
    (play_next_track s now).history.length ≤ 50 := by
  rcases hpl : s.playlist with _ | ⟨t, rest⟩
  · rw [pnt_of_nil s now hpl]; exact hb
  · rcases hc : s.current_track with _ | c
    · simp [play_next_track, hpl, hc]; exact hb
    · have := histAppendCap_length s.history c
      simp only [play_next_track, hpl, hc]
      simpa using this

lemma advanceN_history_length (s : RadioState) (now : ℚ) (hb : s.history.length ≤ 50) :
    ∀ k, (advanceN k s now).history.length ≤ 50
  | 0 => hb
  | k + 1 => pnt_history_length (advanceN k s now) now (advanceN_history_length s now hb k)

/-- Claim C1: for every state with a non-empty playlist, a current track of
positive duration and is_playing set, a GET /radio/state call at a time with
elapsed at least the duration performs exactly one rotation advance (the
resulting state is one play_next_track step), and that advance sets started_at
to the current time, position to 0 and leaves is_playing true; a call with
elapsed below the duration performs no advance (the state is unchanged). -/
theorem claim1_state_poll_advance (songs : Nat) (s : RadioState) (tr : Track) (now : ℚ)
    (hcur : s.current_track = some tr) (hdur : 0 < tr.duration)
    (hplay : s.is_playing = true) (hne : s.playlist ≠ []) :
    ((tr.duration : ℚ) ≤ now - s.started_at →
      (get_radio_state songs s now).fst = play_next_track s now ∧
      (get_radio_state songs s now).fst.started_at = now ∧
      (get_radio_state songs s now).fst.position = 0 ∧
      (get_radio_state songs s now).fst.is_playing = true ∧
      (get_radio_state songs s now).fst ≠ s) ∧
    (now - s.started_at < (tr.duration : ℚ) →
      (get_radio_state songs s now).fst = s) := by
  constructor
  · intro hle
    have h1 := grs_fst_of_late songs s now tr hcur hplay hle
    rcases hpl : s.playlist with _ | ⟨t, rest⟩
    · exact absurd hpl hne
    · obtain ⟨hstart, hposn, hplay2, _⟩ := pnt_fields s now t rest hpl
      refine ⟨h1, ?_, ?_, ?_, ?_⟩
      · rw [h1]; exact hstart
      · rw [h1]; exact hposn
      · rw [h1, hplay2, hplay]
      · rw [h1]
        intro heq
        have h2 : (play_next_track s now).started_at = now := hstart
        rw [heq] at h2
        have hd : (0 : ℚ) < (tr.duration : ℚ) := by exact_mod_cast hdur
        have h3 : (0 : ℚ) < now - s.started_at := lt_of_lt_of_le hd hle
        rw [h2] at h3
        simp at h3
  · intro hlt
    exact grs_fst_of_early songs s now tr hcur hplay hlt

/-- Witness for claim C1 at a concrete input: trackA (duration 5) started at 0,
polled at time 6; the poll advances and the result is one play_next_track step
with started_at 6 and position 0. -/
theorem claim1_state_poll_advance_witness :
    (get_radio_state 0 stateW1 6).fst = play_next_track stateW1 6 ∧
    (get_radio_state 0 stateW1 6).fst.started_at = 6 ∧
    (get_radio_state 0 stateW1 6).fst.position = 0 ∧
    (get_radio_state 0 stateW1 6).fst.is_playing = true ∧
    (get_radio_state 0 stateW1 6).fst ≠ stateW1 :=
  (claim1_state_poll_advance 0 stateW1 trackA 6 rfl (by decide)
    rfl (by decide)).1 (by norm_num [stateW1, trackA])

/-- Claim C2 counterexample: in stateW1 the elapsed position 6 has passed the
current track's duration 5, yet GET /radio/stream leaves the state unchanged —
no rotation advance happens during this state-reading operation, although an
advance would have changed the current track.  The claim that every
state-reading operation (including /radio/stream) advances at position beyond
duration is therefore false for the code. -/
theorem claim2_stream_no_advance_cex :
    ((trackA.duration : ℚ) ≤ (6 : ℚ) - stateW1.started_at) ∧
    (get_stream_url stateW1 6).fst = stateW1 ∧
    (play_next_track stateW1 6).current_track ≠ stateW1.current_track := by
  refine ⟨by norm_num [trackA, stateW1], rfl, by decide⟩

/-- Claim C2 (amended): end-of-track detection is lazy and pull-based, but it
is performed only by GET /radio/state; GET /radio/stream reads the elapsed
position and returns it without ever advancing rotation, leaving the state
unchanged even when the position has reached the duration. -/
theorem claim2_lazy_detection (songs : Nat) (s : RadioState) (now : ℚ) (tr : Track)
    (hcur : s.current_track = some tr) (hplay : s.is_playing = true)
    (hle : (tr.duration : ℚ) ≤ now - s.started_at) :
    (get_stream_url s now).fst = s ∧
    (get_stream_url s now).snd =
      Except.ok { audio_url := tr.audio_url, position := now - s.started_at } ∧
    (get_radio_state songs s now).fst = play_next_track s now := by
  refine ⟨?_, ?_, grs_fst_of_late songs s now tr hcur hplay hle⟩
  · simp [get_stream_url, hcur]
  · simp [get_stream_url, hcur, hplay]

/-- Witness for amended claim C2 at a concrete input: at time 6 on stateW1 the
stream read changes nothing while the state read advances. -/
theorem claim2_lazy_detection_witness :
    (get_stream_url stateW1 6).fst = stateW1 ∧
    (get_stream_url stateW1 6).snd =
      Except.ok { audio_url := trackA.audio_url, position := 6 - stateW1.started_at } ∧
    (get_radio_state 0 stateW1 6).fst = play_next_track stateW1 6 :=
  claim2_lazy_detection 0 stateW1 6 trackA rfl rfl (by norm_num [stateW1, trackA])

/-- Claim C3: rotate-to-tail periodicity.  For a playlist of size K of
pairwise distinct tracks (track ids are unique in the backend) with no
insertions between advances, the head track becomes current at the first
advance, is current again exactly K advances later, and is not current at any
advance strictly between those two, for every index j with 2 <= j <= K. -/
theorem claim3_rotation_period (s : RadioState) (now : ℚ) (a : Track)
    (tl : List Track) (hp : s.playlist = a :: tl) (hnd : s.playlist.Nodup)
    (j : ℕ) (hj2 : 2 ≤ j) (hjK : j ≤ s.playlist.length) :
    (advanceN 1 s now).current_track = some a ∧
    (advanceN j s now).current_track ≠ some a ∧
    (advanceN (s.playlist.length + 1) s now).current_track = some a := by
  have hne : s.playlist ≠ [] := by rw [hp]; simp
  have hget0 : s.playlist[0]? = some a := by rw [hp]; simp
  refine ⟨?_, ?_, ?_⟩
  · have h1 := advanceN_current s now 0 hne
    rw [h1, Nat.zero_mod, hget0]
  · obtain ⟨i, rfl⟩ : ∃ i, j = i + 1 := ⟨j - 1, by omega⟩
    have hcur := advanceN_current s now i hne
    rw [hcur]
    have hi : i % s.playlist.length = i := Nat.mod_eq_of_lt (by omega)
    rw [hi]
    intro hcontra
    have h0 : s.playlist[i]? = s.playlist[0]? := by rw [hcontra, hget0]
    have := List.getElem?_inj (by omega) hnd h0
    omega
  · have hcur := advanceN_current s now s.playlist.length hne
    rw [hcur, Nat.mod_self, hget0]

/-- Witness for claim C3 at a concrete input: playlist of the two distinct
tracks trackA, trackB (K = 2) with trackC current; trackA is current after
advance 1, not after advance 2, and current again after advance 3. -/
theorem claim3_rotation_period_witness :
    (advanceN 1 state3 0).current_track = some trackA ∧
    (advanceN 2 state3 0).current_track ≠ some trackA ∧
    (advanceN (state3.playlist.length + 1) state3 0).current_track = some trackA :=
  claim3_rotation_period state3 0 trackA [trackB] rfl (by decide) 2
    (by decide) (by decide)

/-- Claim C10: a rotation advance on a non-empty playlist only moves the head
track to the tail, so the playlist's length and its collection of tracks are
unchanged by any number of advances (stated as a permutation, which preserves
the multiset of tracks). -/
theorem claim10_playlist_multiset (s : RadioState) (now : ℚ) (k : ℕ) (t : Track)
    (rest : List Track) (h : s.playlist = t :: rest) :
    (play_next_track s now).playlist = rest ++ [t] ∧
    List.Perm (advanceN k s now).playlist s.playlist ∧
    (advanceN k s now).playlist.length = s.playlist.length := by
  refine ⟨(pnt_fields s now t rest h).2.2.2, ?_, ?_⟩
  · rw [advanceN_playlist s now k]
    exact List.rotate_perm s.playlist k
  · rw [advanceN_playlist s now k, List.length_rotate]

/-- Witness for claim C10 at a concrete input: three advances on the two-track
playlist of state3 permute it and keep its length. -/
theorem claim10_playlist_multiset_witness :
    (play_next_track state3 0).playlist = [trackB] ++ [trackA] ∧
    List.Perm (advanceN 3 state3 0).playlist state3.playlist ∧
    (advanceN 3 state3 0).playlist.length = state3.playlist.length :=
  claim10_playlist_multiset state3 0 3 trackA [trackB] rfl

/-- Claim C4 counterexample: two forced advances on stateC4 (trackA current,
queue trackB, trackC) leave a history of [trackA, trackB] — the more recently
played trackB sits at the tail, not at the head, so the history is in recency
order with the most recent last, refuting the claimed most-recent-first
order. -/
theorem claim4_history_order_cex :
    (skip_track (skip_track stateC4 1) 2).history = [trackA, trackB] ∧
    (skip_track (skip_track stateC4 1) 2).history ≠ [trackB, trackA] ∧
    trackA ≠ trackB := by
  refine ⟨by decide, by decide, by decide⟩

/-- Claim C4 (amended): the history's length never exceeds the hardcoded
capacity 50 (and stays bounded under any number of further advances), and the
history keeps the most recent previously-current tracks in recency order with
the most recent LAST: the track that was current before an advance becomes the
last history entry. -/
theorem claim4_history_bound (s : RadioState) (now : ℚ) (c : Track) (k : ℕ)
    (hcur : s.current_track = some c) (hne : s.playlist ≠ [])
    (hlen : s.history.length ≤ 50) :
    (play_next_track s now).history.getLast? = some c ∧
    (play_next_track s now).history.length ≤ 50 ∧
    (advanceN k s now).history.length ≤ 50 := by
  rcases hpl : s.playlist with _ | ⟨t, rest⟩
  · exact absurd hpl hne
  · refine ⟨?_, pnt_history_length s now hlen, advanceN_history_length s now hlen k⟩
    have h1 := histAppendCap_getLast s.history c
    simp only [play_next_track, hpl, hcur]
    simpa using h1

/-- Witness for amended claim C4 at a concrete input: after an advance on
stateC4 the previously current trackA is the last history entry, and the
history length stays within 50 for three further advances. -/
theorem claim4_history_bound_witness :
    (play_next_track stateC4 1).history.getLast? = some trackA ∧
    (play_next_track stateC4 1).history.length ≤ 50 ∧
    (advanceN 3 stateC4 1).history.length ≤ 50 :=
  claim4_history_bound stateC4 1 trackA 3 rfl (by decide) (by decide)

/-- Claim C5 counterexample: in stateC5 (trackA current with duration 5 since
time 0, zero-duration trackZ queued; the Track model's default duration is 0
and the backend never validates durations) two GET /radio/state calls at the
same instant 6 both advance: the first advance makes trackZ current with a
reset clock, but elapsed 0 already reaches trackZ's duration 0, so the second
call advances again — each advance appends to the history, whose length grows
from 0 to 1 to 2. -/
theorem claim5_double_advance_cex :
    stateC5.history.length = 0 ∧
    (get_radio_state 0 stateC5 6).fst.history.length = 1 ∧
    (get_radio_state 0 ((get_radio_state 0 stateC5 6).fst) 6).fst.history.length = 2 := by
  have h1 : (get_radio_state 0 stateC5 6).fst = play_next_track stateC5 6 :=
    grs_fst_of_late 0 stateC5 6 trackA rfl rfl (by norm_num [stateC5, trackA])
  have h2 : play_next_track stateC5 6 =
      { current_track := some trackZ, position := 0, is_playing := true,
        started_at := 6, playlist := [trackZ], history := [trackA] } := by
    simp [play_next_track, stateC5]
  have h3 : (get_radio_state 0
      ({ current_track := some trackZ, position := 0, is_playing := true,
         started_at := 6, playlist := [trackZ], history := [trackA] } : RadioState) 6).fst =
      play_next_track
        { current_track := some trackZ, position := 0, is_playing := true,
          started_at := 6, playlist := [trackZ], history := [trackA] } 6 :=
    grs_fst_of_late 0 _ 6 trackZ rfl rfl (by norm_num [trackZ])
  have h4 : play_next_track
      ({ current_track := some trackZ, position := 0, is_playing := true,
         started_at := 6, playlist := [trackZ], history := [trackA] } : RadioState) 6 =
      { current_track := some trackZ, position := 0, is_playing := true,
        started_at := 6, playlist := [trackZ], history := [trackA, trackZ] } := by
    simp [play_next_track]
  refine ⟨rfl, ?_, ?_⟩
  · rw [h1, h2]
    rfl
  · rw [h1, h2, h3, h4]
    rfl

/-- Claim C5 (amended): provided every queued track has positive duration,
two GET /radio/state calls at the same wall-clock instant advance rotation at
most once: the second call observes the clock reset by the first and returns
the same state. -/
theorem claim5_same_instant_idempotent (songs : Nat) (s : RadioState) (now : ℚ)
    (hdur : ∀ t ∈ s.playlist, 0 < t.duration) :
    (get_radio_state songs (get_radio_state songs s now).fst now).fst =
      (get_radio_state songs s now).fst := by
  rcases hc : s.current_track with _ | tr
  · have hfst : (get_radio_state songs s now).fst = s := by
      rw [grs_of_none songs s now hc]
    rw [hfst]
    exact hfst
  · rcases hp : s.is_playing with _ | _
    · have hfst := grs_fst_of_not_playing songs s now tr hc hp
      rw [hfst]
      exact hfst
    · by_cases hle : (tr.duration : ℚ) ≤ now - s.started_at
      · have hfst := grs_fst_of_late songs s now tr hc hp hle
        rcases hpl : s.playlist with _ | ⟨t, rest⟩
        · have hid : play_next_track s now = s := pnt_of_nil s now hpl
          rw [hfst, hid]
          exact hfst.trans hid
        · have hcur2 : (play_next_track s now).current_track = some t :=
            pnt_current s now t rest hpl
          obtain ⟨hstart2, _, hplay2, _⟩ := pnt_fields s now t rest hpl
          have hp2 : (play_next_track s now).is_playing = true := by
            rw [hplay2, hp]
          have hdt : 0 < t.duration := hdur t (by rw [hpl]; exact List.mem_cons_self _ _)
          have hlt : now - (play_next_track s now).started_at < (t.duration : ℚ) := by
            rw [hstart2, sub_self]
            exact_mod_cast hdt
          have hfst2 := grs_fst_of_early songs (play_next_track s now) now t hcur2 hp2 hlt
          rw [hfst]
          exact hfst2
      · have hfst := grs_fst_of_early songs s now tr hc hp (not_le.mp hle)
        rw [hfst]
        exact hfst

/-- Witness for amended claim C5 at a concrete input: on stateW1 (queue
trackB with duration 7 > 0) the second same-instant call at time 6 returns
the state produced by the first. -/
theorem claim5_same_instant_idempotent_witness :
    (get_radio_state 0 (get_radio_state 0 stateW1 6).fst 6).fst =
      (get_radio_state 0 stateW1 6).fst :=
  claim5_same_instant_idempotent 0 stateW1 6 (by decide)

/-- Claim C6: with an empty playlist and no current track, GET /radio/state
returns a well-defined idle snapshot with a null current track (and position
0, is_playing false) without mutating the state, and every rotation advance
is a no-op leaving the state unchanged. -/
theorem claim6_empty_playlist_idle (songs : Nat) (s : RadioState) (now : ℚ)
    (hcur : s.current_track = none) (hpl : s.playlist = []) :
    (get_radio_state songs s now).fst = s ∧
    (get_radio_state songs s now).snd.current_track = none ∧
    (get_radio_state songs s now).snd.position = 0 ∧
    (get_radio_state songs s now).snd.is_playing = false ∧
    play_next_track s now = s := by
  rw [grs_of_none songs s now hcur]
  exact ⟨rfl, rfl, rfl, rfl, pnt_of_nil s now hpl⟩

/-- Witness for claim C6 at a concrete input: the empty state at time 3. -/
theorem claim6_empty_playlist_idle_witness :
    (get_radio_state 0 stateEmpty 3).fst = stateEmpty ∧
    (get_radio_state 0 stateEmpty 3).snd.current_track = none ∧
    (get_radio_state 0 stateEmpty 3).snd.position = 0 ∧
    (get_radio_state 0 stateEmpty 3).snd.is_playing = false ∧
    play_next_track stateEmpty 3 = stateEmpty :=
  claim6_empty_playlist_idle 0 stateEmpty 3 rfl rfl

/-- Claim C7: saving a favorite always overwrites the single stored favorite:
after a save while t1 is current followed by a save while t2 is current, the
get endpoint returns exactly t2 and never t1 (for distinct tracks); and a save
with no track playing returns a 404 error leaving the stored favorite
unmodified. -/
theorem claim7_favorite_overwrite (s1 s2 s3 : RadioState)
    (fav0 : Option UserFavorite) (t1 t2 : Track) (ta tb tc : ℚ)
    (h1 : s1.current_track = some t1) (h2 : s2.current_track = some t2)
    (h3 : s3.current_track = none) (hne : t1 ≠ t2) :
    get_favorite (save_favorite s1 fav0 ta).fst = some t1 ∧
    get_favorite (save_favorite s2 (save_favorite s1 fav0 ta).fst tb).fst = some t2 ∧
    get_favorite (save_favorite s2 (save_favorite s1 fav0 ta).fst tb).fst ≠ some t1 ∧
    save_favorite s3 fav0 tc = (fav0, Except.error 404) := by
  refine ⟨?_, ?_, ?_, ?_⟩
  · simp [save_favorite, get_favorite, h1]
  · simp [save_favorite, get_favorite, h1, h2]
  · simp [save_favorite, get_favorite, h1, h2]
    exact fun h => hne h.symm
  · simp [save_favorite, h3]

/-- Witness for claim C7 at a concrete input: saving trackA then trackB leaves
trackB as the stored favorite, and a save on the empty state is a 404 that
keeps the empty favorite slot. -/
theorem claim7_favorite_overwrite_witness :
    get_favorite (save_favorite stateW1 none 1).fst = some trackA ∧
    get_favorite (save_favorite stateB (save_favorite stateW1 none 1).fst 2).fst = some trackB ∧
    get_favorite (save_favorite stateB (save_favorite stateW1 none 1).fst 2).fst ≠ some trackA ∧
    save_favorite stateEmpty none 3 = (none, Except.error 404) :=
  claim7_favorite_overwrite stateW1 stateB stateEmpty none trackA trackB 1 2 3
    rfl rfl rfl (by decide)

/-- Claim C8 counterexample: in stateC8 the current track trackZ has duration
0 (the Track model's own default) and its clock started at time 5; a state
poll at the same time 5 — elapsed 0 — already advances rotation, so the code
treats a duration-0 track as instantly ended and substitutes no 1-second
minimum. -/
theorem claim8_zero_duration_cex :
    stateC8.current_track = some trackZ ∧
    trackZ.duration = 0 ∧
    (get_radio_state 0 stateC8 5).fst.current_track = some trackB ∧
    trackB ≠ trackZ := by
  have h1 : (get_radio_state 0 stateC8 5).fst = play_next_track stateC8 5 :=
    grs_fst_of_late 0 stateC8 5 trackZ rfl rfl (by norm_num [stateC8, trackZ])
  refine ⟨rfl, rfl, ?_, by decide⟩
  rw [h1]
  rfl

/-- Claim C8 (amended): the code substitutes no minimum duration: a current
track whose duration is at most 0 is treated as instantly ended — every state
poll while playing (with the clock not in the future) performs the rotation
advance and reports position 0.  No clock computation divides or takes a
modulus (clamped mode), so no division by zero can occur; the claimed
1-second substitution does not exist. -/
theorem claim8_zero_duration_instant_end (songs : Nat) (s : RadioState)
    (tr : Track) (now : ℚ) (hcur : s.current_track = some tr)
    (hd : tr.duration ≤ 0) (hp : s.is_playing = true)
    (ht : s.started_at ≤ now) :
    (get_radio_state songs s now).fst = play_next_track s now ∧
    (get_radio_state songs s now).snd.position = 0 := by
  have h0 : (tr.duration : ℚ) ≤ 0 := by exact_mod_cast hd
  have hle : (tr.duration : ℚ) ≤ now - s.started_at := by linarith
  exact ⟨grs_fst_of_late songs s now tr hcur hp hle,
    grs_snd_pos_of_late songs s now tr hcur hp hle⟩

/-- Witness for amended claim C8 at a concrete input: stateC8 polled at time
5 advances instantly and reports position 0. -/
theorem claim8_zero_duration_instant_end_witness :
    (get_radio_state 0 stateC8 5).fst = play_next_track stateC8 5 ∧
    (get_radio_state 0 stateC8 5).snd.position = 0 :=
  claim8_zero_duration_instant_end 0 stateC8 trackZ 5 rfl (by decide) rfl
    (by norm_num [stateC8])

/-- Claim C9: the filename-to-(artist, title) parse is the pure function the
spec describes — strip the extension, strip a leading track-number run, split
on the first space-dash-space or, failing that, the first dash, and otherwise
default to Unknown Artist with the whole remaining name as the title: the
embedding of the code coincides with the function written from the spec's
words on every input string. -/
theorem claim9_parse_refinement (f : List Char) :
    parse_filename f = parse_filename_claimed f := by
  unfold parse_filename parse_filename_claimed
  rcases h1 : splitOnFirst sepSpaceDashSpace (stripLeadingNum (beforeLastDot f)) with _ | ⟨a, t⟩
  · rcases h2 : splitOnFirst ['-'] (stripLeadingNum (beforeLastDot f)) with _ | ⟨a, t⟩
    · simp [h1, h2]
    · simp [h1, h2]
  · simp [h1]

/-- Concrete evaluation of the parse on a typical numbered filename. -/
theorem parse_filename_example1 :
    parse_filename ['0', '1', ' ', '-', ' ', 'Q', 'u', 'e', 'e', 'n',
      ' ', '-', ' ', 'B', 'o', '.', 'm', 'p', '3'] =
      { artist := ['Q', 'u', 'e', 'e', 'n'], title := ['B', 'o'] } := by
  decide

/-- Concrete evaluation of the parse on a filename with no separator. -/
theorem parse_filename_example2 :
    parse_filename ['T', 'r', 'a', 'c', 'k', '.', 'm', 'p', '3'] =
      { artist := unknownArtist, title := ['T', 'r', 'a', 'c', 'k'] } := by
  decide
